import Mathlib

/-!
Verification of the glm-realtime-sdk client runtime.

This file gives a shallow embedding of the three core subsystems of the
repository and proves the specification claims about them:

* `MediaSourcePlayer` (frontend `mediaSourcePlayer.ts`): the
  container-streaming playback buffer manager built on the MediaSource API.
  Chunks are appended to a `SourceBuffer`; each append is acknowledged
  asynchronously by an `updateend` event, and a local queue serialises
  submissions.
* `ChatVAD` (frontend `vad.ts`): the voice-activity-driven capture
  segmenter with a four-frame pre-roll ring buffer.
* `realtimeClient` / `events.Event` (golang client): the websocket event
  protocol client, its `Send` path and its receive loop `readWsMsg`.

Numeric convention: the source compares IEEE doubles that are all exact
multiples of 1/100 (thresholds `0.85`, `0.25`, `0.5`).  The embedding
scales every speech probability, threshold and media duration by 100 and
works in ℤ, so all of the source's comparisons are represented exactly
and every definition stays kernel-computable (`0.85` is written `85`,
`0.5` is `50`, and so on).  Audio sample buffers are lists of integers and
chunks handed to the playback backend are natural-number identifiers.
-/

namespace Glm

/-! ## MediaSourcePlayer (mediaSourcePlayer.ts) -/

/-- State of one `MediaSourcePlayer` instance together with the observable
history of the backend: `appended` records every `appendBuffer` call in
order, `inFlight` counts appends that have not yet received their
`updateend` acknowledgment.  `sbUpdating` mirrors
`ttsSourceBuffer.updating` (set by `appendBuffer`, cleared by the platform
when `updateend` fires); `bufferUpdating` is the player's own flag of the
same name.  `currentTime` records the audio element position as written by
the player's code (creating a fresh media source in `reset`/`init` resets
it to zero; real playback advancing it is irrelevant to the claims, which
are about the starting offset the code applies).  Durations are scaled by
100 (see the file header). -/
structure MSPState where
  playing : Bool
  bufferUpdating : Bool
  sbUpdating : Bool
  bufferQueue : List Nat
  appended : List Nat
  inFlight : Nat
  lastDuration : ℤ
  ttsEnded : Bool
  currentTime : ℤ
deriving Repr, DecidableEq

/-- Initial state after `init`: nothing queued, nothing in flight. -/
def mspInit : MSPState :=
  { playing := false, bufferUpdating := false, sbUpdating := false
    bufferQueue := [], appended := [], inFlight := 0
    lastDuration := 0, ttsEnded := false, currentTime := 0 }

/-- JS comparison `duration >= x` where the duration may be `Infinity`
(modelled as `none`; `Infinity >= x` is true in JS). -/
def durGE (d : Option ℤ) (x : ℤ) : Bool :=
  match d with
  | none => true
  | some q => decide (x ≤ q)

/-- Method `append` (mediaSourcePlayer.ts): hand one chunk to the source buffer.
`appendBuffer` puts the source buffer into its updating state and the
method sets `bufferUpdating = true`. -/
def MSPState.append (s : MSPState) (c : Nat) : MSPState :=
  { s with appended := s.appended ++ [c], sbUpdating := true
           bufferUpdating := true, inFlight := s.inFlight + 1 }

/-- Handler `sourceBufferOnUpdateEnd` (mediaSourcePlayer.ts): the `updateend`
acknowledgment handler, invoked with the media source duration `d` the
platform reports at that moment.  The listener is registered `once` per
`appendBuffer`, so the handler can only run while an append is in flight;
an event arriving otherwise is a no-op.  Body, in source order: zero
`lastDuration` when the duration is `Infinity`; auto-play once the
buffered duration reaches 0.5 (seeking to `lastDuration` first when
resuming after `ended`); clear `bufferUpdating`; drain the head of
`bufferQueue` by appending it.  The duration/auto-play block (source
lines between the resolver reset and the `bufferUpdating` reset) is
factored out as `playGate`. -/
def playGate (d : Option ℤ) (s : MSPState) : MSPState :=
  let s2 : MSPState := if d = none then { s with lastDuration := 0 } else s
  if s2.playing = false ∧ durGE d 50 = true then
    let s2a : MSPState :=
      if s2.ttsEnded = true ∧ s2.lastDuration ≠ 0 then
        { s2 with currentTime := s2.lastDuration }
      else s2
    -- `audioElement.play()` fires `onPlayTTS`, which also clears `ttsEnded`
    { s2a with playing := true, ttsEnded := false }
  else s2

def MSPState.sourceBufferOnUpdateEnd (s : MSPState) (d : Option ℤ) : MSPState :=
  if s.sbUpdating = false then s
  else
    let s3 : MSPState := playGate d { s with sbUpdating := false, inFlight := s.inFlight - 1 }
    let s4 : MSPState := { s3 with bufferUpdating := false }
    match s4.bufferQueue with
    | [] => s4
    | c :: rest => MSPState.append { s4 with bufferQueue := rest } c

/-- Predicate `checkBufferUpdating` (mediaSourcePlayer.ts). -/
def MSPState.checkBufferUpdating (s : MSPState) : Bool :=
  s.bufferUpdating || s.sbUpdating || decide (s.bufferQueue ≠ [])

/-- Method `adaptBuffer` (mediaSourcePlayer.ts): submit one chunk — enqueue at the
tail while busy, otherwise append immediately. -/
def MSPState.adaptBuffer (s : MSPState) (c : Nat) : MSPState :=
  if s.checkBufferUpdating = true then { s with bufferQueue := s.bufferQueue ++ [c] }
  else s.append c

/-- Events observable by one `MediaSourcePlayer`: a chunk submission
(`adaptBuffer`), an `updateend` acknowledgment carrying the duration the
media source reports, the audio element's `ended` event (`onCloseTTS`),
and `reset` (tear down the media source and re-`init` a fresh one). -/
inductive MSPEvent where
  | submit (c : Nat)
  | ack (d : Option ℤ)
  | ended
  | reset
deriving Repr, DecidableEq

/-- One step of the player.  `ended` runs `onCloseTTS` (it reads nothing
from the media position — in particular it does not capture the duration
into `lastDuration`).  `reset` abandons the old source buffer and
re-initialises: the fresh source buffer is not updating, any pending
acknowledgment is orphaned, and swapping the audio element `src` resets
its position to zero. -/
def MSPStep (s : MSPState) : MSPEvent → MSPState
  | .submit c => s.adaptBuffer c
  | .ack d => s.sourceBufferOnUpdateEnd d
  | .ended => { s with playing := false, ttsEnded := true }
  | .reset => { s with sbUpdating := false, inFlight := 0, currentTime := 0 }

/-- Run the player over a sequence of events. -/
def runMSP (s : MSPState) (tr : List MSPEvent) : MSPState :=
  tr.foldl MSPStep s

/-- The chunks submitted in a trace, in submission order. -/
def submittedOf : List MSPEvent → List Nat
  | [] => []
  | .submit c :: tr => c :: submittedOf tr
  | .ack _ :: tr => submittedOf tr
  | .ended :: tr => submittedOf tr
  | .reset :: tr => submittedOf tr

lemma submittedOf_cons (ev : MSPEvent) (tr : List MSPEvent) :
    submittedOf (ev :: tr) = submittedOf [ev] ++ submittedOf tr := by
  cases ev <;> simp [submittedOf]

@[simp] lemma playGate_appended (d : Option ℤ) (s : MSPState) :
    (playGate d s).appended = s.appended := by
  simp only [playGate]; split_ifs <;> rfl

@[simp] lemma playGate_bufferQueue (d : Option ℤ) (s : MSPState) :
    (playGate d s).bufferQueue = s.bufferQueue := by
  simp only [playGate]; split_ifs <;> rfl

@[simp] lemma playGate_sbUpdating (d : Option ℤ) (s : MSPState) :
    (playGate d s).sbUpdating = s.sbUpdating := by
  simp only [playGate]; split_ifs <;> rfl

@[simp] lemma playGate_bufferUpdating (d : Option ℤ) (s : MSPState) :
    (playGate d s).bufferUpdating = s.bufferUpdating := by
  simp only [playGate]; split_ifs <;> rfl

@[simp] lemma playGate_inFlight (d : Option ℤ) (s : MSPState) :
    (playGate d s).inFlight = s.inFlight := by
  simp only [playGate]; split_ifs <;> rfl

lemma playGate_lastDuration (d : Option ℤ) (s : MSPState) (h : s.lastDuration = 0) :
    (playGate d s).lastDuration = 0 := by
  simp only [playGate]; split_ifs <;> simp [h]

lemma playGate_playing_of_false (d : Option ℤ) (s : MSPState) (h : s.playing = false) :
    (playGate d s).playing = durGE d 50 := by
  simp only [playGate]
  cases hd : durGE d 50 <;> split_ifs with h1 h2 <;> simp_all

/-- Single-writer bookkeeping: the number of unacknowledged appends is one
exactly while the source buffer is updating. -/
def MSPInFlightInv (s : MSPState) : Prop :=
  s.inFlight = if s.sbUpdating = true then 1 else 0

lemma mspStep_inv (s : MSPState) (ev : MSPEvent) (h : MSPInFlightInv s) :
    MSPInFlightInv (MSPStep s ev) ∧
    (MSPStep s ev).appended ++ (MSPStep s ev).bufferQueue =
      (s.appended ++ s.bufferQueue) ++ submittedOf [ev] := by
  cases ev with
  | submit c =>
    by_cases hb : s.checkBufferUpdating = true
    · simp only [MSPStep, MSPState.adaptBuffer, if_pos hb]
      exact ⟨h, by simp [submittedOf]⟩
    · have hb' := hb
      simp only [MSPState.checkBufferUpdating, Bool.or_eq_true, decide_eq_true_eq,
        not_or] at hb'
      obtain ⟨⟨hbu, hsb⟩, hq⟩ := hb'
      have hsb : s.sbUpdating = false := by simpa using hsb
      have hq : s.bufferQueue = [] := by simpa using hq
      have h0 : s.inFlight = 0 := by simpa [MSPInFlightInv, hsb] using h
      simp only [MSPStep, MSPState.adaptBuffer, if_neg hb]
      refine ⟨by simp [MSPInFlightInv, MSPState.append, h0], ?_⟩
      simp [MSPState.append, hq, submittedOf]
  | ack d =>
    by_cases hsb : s.sbUpdating = false
    · simp only [MSPStep, MSPState.sourceBufferOnUpdateEnd, if_pos hsb]
      exact ⟨h, by simp [submittedOf]⟩
    · have hsb' : s.sbUpdating = true := by simpa using hsb
      have h1 : s.inFlight = 1 := by simpa [MSPInFlightInv, hsb'] using h
      simp only [MSPStep, MSPState.sourceBufferOnUpdateEnd, if_neg hsb]
      cases hq : (playGate d { s with sbUpdating := false, inFlight := s.inFlight - 1 }).bufferQueue with
      | nil =>
        have hq' : s.bufferQueue = [] := by simpa using hq
        refine ⟨?_, ?_⟩
        · simp [MSPInFlightInv, hq, h1]
        · simp [hq, hq', submittedOf]
      | cons c rest =>
        have hq' : s.bufferQueue = c :: rest := by simpa using hq
        refine ⟨?_, ?_⟩
        · simp [MSPInFlightInv, hq, MSPState.append, h1]
        · simp [hq, hq', MSPState.append, submittedOf]
  | ended =>
    exact ⟨by simpa [MSPStep, MSPInFlightInv] using h, by simp [MSPStep, submittedOf]⟩
  | reset =>
    exact ⟨by simp [MSPStep, MSPInFlightInv], by simp [MSPStep, submittedOf]⟩

lemma mspRun_inv : ∀ (tr : List MSPEvent) (s : MSPState), MSPInFlightInv s →
    MSPInFlightInv (runMSP s tr) ∧
    (runMSP s tr).appended ++ (runMSP s tr).bufferQueue =
      (s.appended ++ s.bufferQueue) ++ submittedOf tr
  | [], s, h => ⟨h, by simp [runMSP, submittedOf]⟩
  | ev :: tr, s, h => by
    have hstep := mspStep_inv s ev h
    have hrec := mspRun_inv tr (MSPStep s ev) hstep.1
    refine ⟨by simpa [runMSP] using hrec.1, ?_⟩
    have hr : runMSP s (ev :: tr) = runMSP (MSPStep s ev) tr := by simp [runMSP]
    rw [hr, hrec.2, hstep.2]
    conv_rhs => rw [submittedOf_cons]
    simp [List.append_assoc]

/-- Claim C1: over every event sequence, at most one chunk is in flight
(appended, awaiting `updateend`) at any time, and the chunks the source
buffer observes (`appended`) followed by the still-queued ones equal the
submitted chunks in submission order — the backend sees a prefix of the
submission order, never a reordering. -/
theorem playback_single_inflight_in_order (tr : List MSPEvent) :
    (runMSP mspInit tr).inFlight ≤ 1 ∧
    (runMSP mspInit tr).appended ++ (runMSP mspInit tr).bufferQueue = submittedOf tr := by
  have h := mspRun_inv tr mspInit (by simp [MSPInFlightInv, mspInit])
  refine ⟨?_, by simpa [mspInit] using h.2⟩
  have h1 := h.1
  unfold MSPInFlightInv at h1
  rw [h1]
  split <;> simp

lemma updateEnd_playing (s : MSPState) (d : Option ℤ)
    (h : s.sbUpdating = true) (hp : s.playing = false) :
    (s.sourceBufferOnUpdateEnd d).playing = durGE d 50 := by
  simp only [MSPState.sourceBufferOnUpdateEnd]
  rw [if_neg (by simp [h])]
  have hpg := playGate_playing_of_false d
    { s with sbUpdating := false, inFlight := s.inFlight - 1 } (by simp [hp])
  split
  · simpa using hpg
  · simpa [MSPState.append] using hpg

/-- Claim C8: submitting a chunk never starts playback by itself, and in the
acknowledgment handler a non-playing player starts playing exactly when the
reported buffered duration has reached 0.5 s (`50` in the 1/100 scale). -/
theorem autoplay_min_buffer_threshold :
    (∀ (s : MSPState) (c : Nat), (MSPStep s (.submit c)).playing = s.playing) ∧
    (∀ (s : MSPState) (d : Option ℤ),
      (MSPStep { s with sbUpdating := true, playing := false } (.ack d)).playing = durGE d 50) := by
  constructor
  · intro s c
    simp only [MSPStep, MSPState.adaptBuffer]
    split_ifs <;> simp [MSPState.append]
  · intro s d
    exact updateEnd_playing _ d rfl rfl

/-- Trace exhibiting the defect behind claim C4: one turn is appended and
played (duration reaches 3.0 s), the audio element fires `ended`, the
player is reset for the next turn, and the next turn's first chunk is
acknowledged with 0.6 s buffered. -/
def c4Trace : List MSPEvent :=
  [.submit 1, .ack (some 300), .ended, .reset, .submit 2, .ack (some 60)]

/-- Claim C4 (code bug): `lastDuration` — the field whose documented purpose
is to record where the previous turn stopped so the next turn can resume
there — is never assigned a non-zero value on any path, so the resume
branch (`ttsEnded && lastDuration`) is dead and in the concrete
turn-boundary trace the new turn starts playing with the audio element
position still at zero instead of the sealed position. -/
theorem player_turn_continuity_snap_to_zero :
    (∀ tr : List MSPEvent, (runMSP mspInit tr).lastDuration = 0) ∧
    (runMSP mspInit c4Trace).playing = true ∧
    (runMSP mspInit c4Trace).currentTime = 0 := by
  refine ⟨?_, by decide, by decide⟩
  have step : ∀ (s : MSPState) (ev : MSPEvent), s.lastDuration = 0 →
      (MSPStep s ev).lastDuration = 0 := by
    intro s ev h
    cases ev with
    | submit c =>
      simp only [MSPStep, MSPState.adaptBuffer]
      split_ifs <;> simp [MSPState.append, h]
    | ack d =>
      simp only [MSPStep, MSPState.sourceBufferOnUpdateEnd]
      split_ifs with h1
      · exact h
      · have hld := playGate_lastDuration d
          { s with sbUpdating := false, inFlight := s.inFlight - 1 } h
        cases hq : (playGate d { s with sbUpdating := false, inFlight := s.inFlight - 1 }).bufferQueue with
        | nil => simpa [hq] using hld
        | cons c rest => simp [hq, MSPState.append, hld]
    | ended => simpa [MSPStep] using h
    | reset => simpa [MSPStep] using h
  have run : ∀ (tr : List MSPEvent) (s : MSPState), s.lastDuration = 0 →
      (runMSP s tr).lastDuration = 0 := by
    intro tr
    induction tr with
    | nil => intro s h; simpa [runMSP] using h
    | cons ev tr ih =>
      intro s h
      have : runMSP s (ev :: tr) = runMSP (MSPStep s ev) tr := by simp [runMSP]
      rw [this]
      exact ih _ (step s ev h)
  exact fun tr => run tr mspInit rfl

/-! ## ChatVAD (vad.ts) -/

/-- Last `n` elements of a list, in order. -/
def takeLast {α : Type} (n : Nat) (l : List α) : List α := l.drop (l.length - n)

/-- Modelled from the spec : the `FixedQueue` helper that backs the pre-roll
ring (`frontend/src/utils/chatHelper.ts` is not among the provided
sources).  Spec §3/§9: a "bounded ring buffer of fixed depth" with "oldest
frame evicted when full", holding its contents in chronological order,
with a `clear` operation and a length. -/
structure FixedQueue (α : Type) where
  capacity : Nat
  queue : List α
deriving Repr, DecidableEq

def FixedQueue.append {α : Type} (q : FixedQueue α) (x : α) : FixedQueue α :=
  { q with queue := takeLast q.capacity (q.queue ++ [x]) }

def FixedQueue.clear {α : Type} (q : FixedQueue α) : FixedQueue α :=
  { q with queue := [] }

def FixedQueue.length {α : Type} (q : FixedQueue α) : Nat := q.queue.length

def FixedQueue.appendAll {α : Type} (q : FixedQueue α) (xs : List α) : FixedQueue α :=
  xs.foldl FixedQueue.append q

/-- Modelled from the spec : `concatFloat32Array` (chatHelper.ts, not among
the provided sources) concatenates two sample buffers. -/
def concatFloat32Array (a b : List ℤ) : List ℤ := a ++ b

/-- Reduction used in `onFrameProcessed` (vad.ts):
`getQueue().reduce(concatFloat32Array, new Float32Array([]))`. -/
def joinPCM (l : List (List ℤ)) : List ℤ := l.foldl concatFloat32Array []

/-- Options of `ChatVAD` (vad.ts): `threshold` is passed to the engine as
`positiveSpeechThreshold` (default `0.85`, scaled `85`), `vadFrame` as
`redemptionFrames` (default 1).  The caller-supplied veto hooks
`revokeSpeechStart`/`revokeSpeechEnd` are modelled by the constant value
they return (`false` when the caller supplies none, matching the
optional-call `?.()` semantics). -/
structure VADOptions where
  threshold : ℤ := 85
  vadFrame : Nat := 1
  revokeSpeechStart : Bool := false
  revokeSpeechEnd : Bool := false
deriving Repr, DecidableEq

/-- Default `threshold` field of `ChatVAD` (`0.85` in the source, scaled). -/
def defaultThreshold : ℤ := 85

/-- Value `negativeSpeechThreshold` configured in `ChatVAD.init` (vad.ts):
`this.threshold - 0.25` (scaled: minus 25). -/
def negativeSpeechThreshold (threshold : ℤ) : ℤ := threshold - 25

/-- Modelled from the spec : internal state of the external speech
classifier capability (`MicVAD` of `@ricky0123/vad-web`; spec §1/§6 treat
the VAD engine as a black-box capability "yielding a per-frame speech
probability" with threshold hysteresis, §4.2). -/
structure VadEngine where
  speaking : Bool
  redemption : Nat
deriving Repr, DecidableEq

/-- Signals the engine delivers to `ChatVAD`'s callbacks. -/
inductive VadSignal where
  | start
  | stop
deriving Repr, DecidableEq

/-- Modelled from the spec : one engine step on a frame with speech
probability `p`.  Crossing `positiveSpeechThreshold` while idle starts
speech (spec §4.2: "crossing the configured positive threshold transitions
to Speaking"); while speaking, `redemptionFrames` frames below
`negativeSpeechThreshold` end it (a frame back above the positive
threshold resets the redemption count); per spec §4.2 the transition is
decided before the frame-level processing of the triggering frame. -/
def engineStep (posT negT : ℤ) (redFrames : Nat) (e : VadEngine) (p : ℤ) :
    VadEngine × Option VadSignal :=
  if posT ≤ p then
    if e.speaking = true then ({ speaking := true, redemption := 0 }, none)
    else ({ speaking := true, redemption := 0 }, some .start)
  else if e.speaking = true ∧ p < negT then
    if redFrames ≤ e.redemption + 1 then ({ speaking := false, redemption := 0 }, some .stop)
    else ({ e with redemption := e.redemption + 1 }, none)
  else (e, none)

/-- Signals of an engine run, one entry per frame probability. -/
def engineTrace (posT negT : ℤ) (redFrames : Nat) : VadEngine → List ℤ → List (Option VadSignal)
  | _, [] => []
  | e, p :: ps =>
    (engineStep posT negT redFrames e p).2 ::
      engineTrace posT negT redFrames (engineStep posT negT redFrames e p).1 ps

/-- Combined state of `ChatVAD` (vad.ts), the engine, and the shared
`chatBase.speeching` flag, together with observation history: `emitted`
records the payloads passed to `onFrameProcess`, `sealed` records the
value of `recordPCMPart` at each `onSpeechEnd` callback, and
`startFired`/`endFired` count the callbacks. -/
structure VadState where
  engine : VadEngine
  speeching : Bool
  speechStart : Bool
  aheadChunks : FixedQueue (List ℤ)
  recordPCMPart : List ℤ
  emitted : List (List ℤ)
  sealed : List (List ℤ)
  startFired : Nat
  endFired : Nat
deriving Repr, DecidableEq

/-- State after `ChatVAD` construction and `init`:
`aheadChunks = new FixedQueue<Float32Array>(4)`, nothing recorded. -/
def vadInit : VadState :=
  { engine := { speaking := false, redemption := 0 }, speeching := false
    speechStart := false, aheadChunks := { capacity := 4, queue := [] }
    recordPCMPart := [], emitted := [], sealed := []
    startFired := 0, endFired := 0 }

/-- Method `handleSpeechStart` (vad.ts): veto check, then set the
`speechStart` latch and the shared `speeching` flag and fire
`onSpeechStart`. -/
def handleSpeechStart (opts : VADOptions) (st : VadState) : VadState :=
  if opts.revokeSpeechStart = true then st
  else { st with speechStart := true, speeching := true, startFired := st.startFired + 1 }

/-- Method `handleSpeechEnd` (vad.ts), also wired to `onVADMisfire`: veto
check, clear `speeching`, fire `onSpeechEnd` (recorded in `sealed`), clear
the pre-roll ring. -/
def handleSpeechEnd (opts : VADOptions) (st : VadState) : VadState :=
  if opts.revokeSpeechEnd = true then st
  else { st with speeching := false, endFired := st.endFired + 1
                 sealed := st.sealed ++ [st.recordPCMPart]
                 aheadChunks := st.aheadChunks.clear }

/-- Callback `onFrameProcessed` (vad.ts): while not `speeching` the frame
only feeds the pre-roll ring; on the first frame after a speech start the
part buffer is reset, the ring contents are prepended once (chronological
reduce) and the ring is cleared; then the (possibly prepended) buffer is
accumulated into `recordPCMPart` and forwarded to `onFrameProcess`.  The
source's `if (inputBuffer)` guard is always taken (a `Float32Array` object
is truthy). -/
def onFrameProcessed (st : VadState) (frame : List ℤ) : VadState :=
  if st.speeching = false then { st with aheadChunks := st.aheadChunks.append frame }
  else
    let stbuf : VadState × List ℤ :=
      if st.speechStart = true then
        let buf : List ℤ :=
          if 0 < st.aheadChunks.length then
            concatFloat32Array (joinPCM st.aheadChunks.queue) frame
          else frame
        ({ st with recordPCMPart := [], speechStart := false
                   aheadChunks := st.aheadChunks.clear }, buf)
      else (st, frame)
    { stbuf.1 with
        recordPCMPart := concatFloat32Array stbuf.1.recordPCMPart stbuf.2
        emitted := stbuf.1.emitted ++ [stbuf.2] }

/-- One frame through the engine and `ChatVAD`: the engine classifies the
probability and fires `onSpeechStart`/`onSpeechEnd` (`onVADMisfire` is
wired to `handleSpeechEnd` too), then `onFrameProcessed` handles the
frame. -/
def processFrame (opts : VADOptions) (st : VadState) (inp : ℤ × List ℤ) : VadState :=
  let r := engineStep opts.threshold (negativeSpeechThreshold opts.threshold)
    opts.vadFrame st.engine inp.1
  let st1 : VadState := { st with engine := r.1 }
  let st2 : VadState :=
    match r.2 with
    | some .start => handleSpeechStart opts st1
    | some .stop => handleSpeechEnd opts st1
    | none => st1
  onFrameProcessed st2 inp.2

/-- Run the capture pipeline over a list of (probability, frame) pairs. -/
def runVAD (opts : VADOptions) (st : VadState) (ps : List (ℤ × List ℤ)) : VadState :=
  ps.foldl (processFrame opts) st

/-- Method `pause` (vad.ts), given an initialised `vadInstance`: the engine
is paused and `onVADOpen(false)` fires (neither is observable here), then
`handleSpeechEnd` is invoked if the user is mid-speech.  `destroy` routes
through `pause` as well. -/
def pause (opts : VADOptions) (st : VadState) : VadState :=
  if st.speeching = true then handleSpeechEnd opts st else st

lemma takeLast_of_length_le {α : Type} {n : Nat} {l : List α} (h : l.length ≤ n) :
    takeLast n l = l := by
  simp [takeLast, Nat.sub_eq_zero_of_le h]

lemma length_takeLast_le {α : Type} (n : Nat) (l : List α) :
    (takeLast n l).length ≤ n := by
  simp [takeLast]
  omega

lemma takeLast_takeLast_append {α : Type} (n : Nat) (l xs : List α) :
    takeLast n (takeLast n l ++ xs) = takeLast n (l ++ xs) := by
  rcases le_or_lt l.length n with h | h
  · rw [takeLast_of_length_le h]
  · unfold takeLast
    have hk : l.length - n ≤ l.length := Nat.sub_le _ _
    rw [← List.drop_append_of_le_length hk, List.drop_drop]
    congr 1
    simp only [List.length_append, List.length_drop]
    omega

lemma FixedQueue.append_capacity {α : Type} (q : FixedQueue α) (x : α) :
    (q.append x).capacity = q.capacity := rfl

lemma FixedQueue.appendAll_capacity {α : Type} (xs : List α) (q : FixedQueue α) :
    (q.appendAll xs).capacity = q.capacity := by
  induction xs generalizing q with
  | nil => rfl
  | cons x xs ih => exact (ih (q.append x)).trans rfl

lemma FixedQueue.appendAll_queue {α : Type} (xs : List α) (q : FixedQueue α)
    (h : q.queue.length ≤ q.capacity) :
    (q.appendAll xs).queue = takeLast q.capacity (q.queue ++ xs) := by
  induction xs generalizing q with
  | nil => simp [FixedQueue.appendAll, takeLast_of_length_le h]
  | cons x xs ih =>
    have h2 : (q.append x).queue.length ≤ (q.append x).capacity := by
      simp only [FixedQueue.append]
      exact length_takeLast_le _ _
    have hrec := ih (q.append x) h2
    show ((q.append x).appendAll xs).queue = _
    rw [hrec]
    simp only [FixedQueue.append]
    rw [takeLast_takeLast_append]
    simp

lemma FixedQueue.appendAll_empty {α : Type} (c : Nat) (xs : List α) :
    FixedQueue.appendAll ⟨c, []⟩ xs = ⟨c, takeLast c xs⟩ := by
  have h1 := FixedQueue.appendAll_queue xs ⟨c, []⟩ (by simp)
  have h2 := FixedQueue.appendAll_capacity xs (⟨c, []⟩ : FixedQueue α)
  have heta : FixedQueue.appendAll ⟨c, []⟩ xs =
      (⟨(FixedQueue.appendAll ⟨c, []⟩ xs).capacity,
        (FixedQueue.appendAll ⟨c, []⟩ xs).queue⟩ : FixedQueue α) := rfl
  rw [heta, h1, h2]
  simp

lemma joinPCM_nil : joinPCM [] = [] := rfl

lemma foldl_concatFloat32Array (fs : List (List ℤ)) :
    ∀ a : List ℤ, fs.foldl concatFloat32Array a = a ++ joinPCM fs := by
  induction fs with
  | nil => intro a; simp [joinPCM, concatFloat32Array]
  | cons f fs ih =>
    intro a
    show fs.foldl concatFloat32Array (concatFloat32Array a f) = a ++ joinPCM (f :: fs)
    have h2 : joinPCM (f :: fs) = f ++ joinPCM fs := by
      show fs.foldl concatFloat32Array (concatFloat32Array [] f) = _
      rw [ih]
      simp [concatFloat32Array]
    rw [ih, h2, concatFloat32Array]
    simp [List.append_assoc]

lemma joinPCM_cons (f : List ℤ) (fs : List (List ℤ)) :
    joinPCM (f :: fs) = f ++ joinPCM fs := by
  show fs.foldl concatFloat32Array (concatFloat32Array [] f) = _
  rw [foldl_concatFloat32Array]
  simp [concatFloat32Array]

lemma prependBuf (q : List (List ℤ)) (f : List ℤ) :
    (if 0 < q.length then concatFloat32Array (joinPCM q) f else f) = joinPCM q ++ f := by
  cases q with
  | nil => simp [joinPCM, concatFloat32Array]
  | cons a l => simp [concatFloat32Array]

lemma runVAD_idle (opts : VADOptions) (ps : List (ℤ × List ℤ)) :
    ∀ st : VadState, st.speeching = false → st.engine.speaking = false →
      (∀ x ∈ ps, x.1 < opts.threshold) →
      runVAD opts st ps =
        { st with aheadChunks := st.aheadChunks.appendAll (ps.map Prod.snd) } := by
  induction ps with
  | nil =>
    intro st _ _ _
    simp [runVAD, FixedQueue.appendAll]
  | cons p ps ih =>
    intro st hsp hes hlt
    have hp : p.1 < opts.threshold := hlt p (by simp)
    have hstep : processFrame opts st p =
        { st with aheadChunks := st.aheadChunks.append p.2 } := by
      simp [processFrame, engineStep, not_le.mpr hp, hes, onFrameProcessed, hsp]
    have hrun : runVAD opts st (p :: ps) = runVAD opts (processFrame opts st p) ps := by
      simp [runVAD]
    rw [hrun, hstep,
      ih _ (by simp [hsp]) (by simp [hes]) (fun x hx => hlt x (by simp [hx]))]
    simp [FixedQueue.appendAll]

lemma runVAD_speaking (opts : VADOptions) (ps : List (ℤ × List ℤ)) :
    ∀ st : VadState, st.speeching = true → st.engine.speaking = true →
      st.speechStart = false →
      (∀ x ∈ ps, negativeSpeechThreshold opts.threshold ≤ x.1) →
      (runVAD opts st ps).speeching = true ∧
      (runVAD opts st ps).engine.speaking = true ∧
      (runVAD opts st ps).speechStart = false ∧
      (runVAD opts st ps).aheadChunks = st.aheadChunks ∧
      (runVAD opts st ps).recordPCMPart = st.recordPCMPart ++ joinPCM (ps.map Prod.snd) ∧
      (runVAD opts st ps).sealed = st.sealed ∧
      (runVAD opts st ps).endFired = st.endFired := by
  induction ps with
  | nil =>
    intro st h1 h2 h3 _
    simp [runVAD, joinPCM, h1, h2, h3]
  | cons p ps ih =>
    intro st h1 h2 h3 hge
    have hp : negativeSpeechThreshold opts.threshold ≤ p.1 := hge p (by simp)
    have hstep : ∃ en : VadEngine, en.speaking = true ∧
        processFrame opts st p =
          { st with engine := en
                    recordPCMPart := concatFloat32Array st.recordPCMPart p.2
                    emitted := st.emitted ++ [p.2] } := by
      by_cases hpos : opts.threshold ≤ p.1
      · exact ⟨{ speaking := true, redemption := 0 }, rfl,
          by simp [processFrame, engineStep, hpos, h2, onFrameProcessed, h1, h3]⟩
      · exact ⟨st.engine, h2,
          by simp [processFrame, engineStep, hpos, h2, not_lt.mpr hp, onFrameProcessed, h1, h3]⟩
    obtain ⟨en, hen, hstep⟩ := hstep
    have hrun : runVAD opts st (p :: ps) = runVAD opts (processFrame opts st p) ps := by
      simp [runVAD]
    rw [hrun, hstep]
    obtain ⟨t1, t2, t3, t4, t5, t6, t7⟩ :=
      ih { st with engine := en
                   recordPCMPart := concatFloat32Array st.recordPCMPart p.2
                   emitted := st.emitted ++ [p.2] }
        h1 hen h3 (fun x hx => hge x (by simp [hx]))
    refine ⟨t1, t2, t3, by simpa using t4, ?_, by simpa using t6, by simpa using t7⟩
    rw [t5]
    simp [concatFloat32Array, joinPCM_cons, List.append_assoc]

/-- Claim C3: when the classifier crosses the start threshold at frame `k`
(the first frame after `pre`), the sealed utterance segment starts with
the last `min(4, k)` frames preceding `k` in chronological order,
prepended exactly once at the transition, followed by the verbatim input
frames until the end-transition frame; and the pre-roll ring is cleared
at the transition.  `pre` are the frames before the crossing (probability
below the start threshold), `s` the crossing frame, `body` the speech
frames (probability at least the end threshold), `e` the end-transition
frame (probability below the end threshold). -/
theorem vad_preroll_prepend (t : ℤ) (pre body : List (ℤ × List ℤ)) (s e : ℤ × List ℤ)
    (hpre : ∀ x ∈ pre, x.1 < t) (hs : t ≤ s.1)
    (hbody : ∀ x ∈ body, negativeSpeechThreshold t ≤ x.1)
    (he : e.1 < negativeSpeechThreshold t) :
    (runVAD { threshold := t, vadFrame := 1 } vadInit ((pre ++ s :: body) ++ [e])).sealed =
      [joinPCM (takeLast 4 (pre.map Prod.snd)) ++ s.2 ++ joinPCM (body.map Prod.snd)] ∧
    (runVAD { threshold := t, vadFrame := 1 } vadInit (pre ++ [s])).aheadChunks.queue = [] := by
  have hA : runVAD { threshold := t, vadFrame := 1 } vadInit pre =
      { vadInit with aheadChunks := ⟨4, takeLast 4 (pre.map Prod.snd)⟩ } := by
    rw [runVAD_idle { threshold := t, vadFrame := 1 } pre vadInit rfl rfl hpre]
    rw [show vadInit.aheadChunks = (⟨4, []⟩ : FixedQueue (List ℤ)) from rfl,
      FixedQueue.appendAll_empty]
  have hB : runVAD { threshold := t, vadFrame := 1 } vadInit (pre ++ [s]) =
      { engine := { speaking := true, redemption := 0 }, speeching := true
        speechStart := false, aheadChunks := ⟨4, []⟩
        recordPCMPart := joinPCM (takeLast 4 (pre.map Prod.snd)) ++ s.2
        emitted := [joinPCM (takeLast 4 (pre.map Prod.snd)) ++ s.2]
        sealed := [], startFired := 1, endFired := 0 } := by
    have hsplit : runVAD { threshold := t, vadFrame := 1 } vadInit (pre ++ [s]) =
        processFrame { threshold := t, vadFrame := 1 }
          (runVAD { threshold := t, vadFrame := 1 } vadInit pre) s := by
      simp [runVAD, List.foldl_append]
    rw [hsplit, hA]
    simp [processFrame, engineStep, hs, handleSpeechStart, onFrameProcessed,
      FixedQueue.clear, FixedQueue.length, prependBuf, concatFloat32Array, vadInit]
    intro h2
    rw [h2]
    rfl
  refine ⟨?_, by rw [hB]⟩
  have hsplit2 : runVAD { threshold := t, vadFrame := 1 } vadInit ((pre ++ s :: body) ++ [e]) =
      processFrame { threshold := t, vadFrame := 1 }
        (runVAD { threshold := t, vadFrame := 1 }
          (runVAD { threshold := t, vadFrame := 1 } vadInit (pre ++ [s])) body) e := by
    have hshape : pre ++ s :: body = (pre ++ [s]) ++ body := by simp
    rw [hshape]
    simp [runVAD, List.foldl_append]
  rw [hsplit2, hB]
  obtain ⟨c1, c2, c3, c4, c5, c6, c7⟩ :=
    runVAD_speaking { threshold := t, vadFrame := 1 } body
      { engine := { speaking := true, redemption := 0 }, speeching := true
        speechStart := false, aheadChunks := ⟨4, []⟩
        recordPCMPart := joinPCM (takeLast 4 (pre.map Prod.snd)) ++ s.2
        emitted := [joinPCM (takeLast 4 (pre.map Prod.snd)) ++ s.2]
        sealed := [], startFired := 1, endFired := 0 }
      rfl rfl rfl hbody
  have he' : e.1 < t - 25 := by simpa [negativeSpeechThreshold] using he
  have het : ¬ (t ≤ e.1) := by omega
  have hone : ∀ n : Nat, 1 ≤ n + 1 := fun n => Nat.succ_le_succ (Nat.zero_le n)
  simp [processFrame, engineStep, het, c1, c2, he', negativeSpeechThreshold, hone,
    handleSpeechEnd, onFrameProcessed, concatFloat32Array, c5, c6, List.append_assoc]

/-- Witness for claim C3: pre-roll depth 4 with five leading idle frames,
one crossing frame, one speech frame and one end frame. -/
theorem vad_preroll_prepend_witness :
    ((85:ℤ) ≤ (90:ℤ)) ∧
    ((runVAD { threshold := 85, vadFrame := 1 } vadInit
        (([((10:ℤ),([1]:List ℤ)), (10,[2]), (10,[3]), (10,[4]), (10,[5])] ++
          ((90:ℤ),([6]:List ℤ)) :: [((70:ℤ),([7]:List ℤ))]) ++ [((10:ℤ),([8]:List ℤ))])).sealed =
      [joinPCM (takeLast 4 ([((10:ℤ),([1]:List ℤ)), (10,[2]), (10,[3]), (10,[4]), (10,[5])].map Prod.snd)) ++
        ((90:ℤ),([6]:List ℤ)).2 ++ joinPCM ([((70:ℤ),([7]:List ℤ))].map Prod.snd)] ∧
    (runVAD { threshold := 85, vadFrame := 1 } vadInit
        ([((10:ℤ),([1]:List ℤ)), (10,[2]), (10,[3]), (10,[4]), (10,[5])] ++
          [((90:ℤ),([6]:List ℤ))])).aheadChunks.queue = []) :=
  ⟨by decide,
    vad_preroll_prepend 85 [((10:ℤ),([1]:List ℤ)), (10,[2]), (10,[3]), (10,[4]), (10,[5])]
      [((70:ℤ),([7]:List ℤ))] ((90:ℤ),([6]:List ℤ)) ((10:ℤ),([8]:List ℤ))
      (by decide) (by decide) (by decide) (by decide)⟩

/-- Claim C5: the end-of-speech threshold configured by `ChatVAD.init` is the
start threshold minus the fixed hysteresis margin 0.25 (so it is strictly
more permissive), the default start threshold 0.85 yields end threshold
0.60, and on the scenario probabilities [0.1,0.2,0.9,0.95,0.3,0.1,0.1]
with start threshold 0.85 the classifier starts speech at index 2 and ends
it at index 4 (all values scaled by 100). -/
theorem vad_hysteresis_thresholds :
    (∀ t : ℤ, negativeSpeechThreshold t = t - 25 ∧ negativeSpeechThreshold t < t) ∧
    negativeSpeechThreshold defaultThreshold = 60 ∧
    engineTrace defaultThreshold (negativeSpeechThreshold defaultThreshold) 1
        { speaking := false, redemption := 0 } [10, 20, 90, 95, 30, 10, 10] =
      [none, none, some .start, none, some .stop, none, none] := by
  refine ⟨fun t => ⟨rfl, ?_⟩, by decide, by decide⟩
  unfold negativeSpeechThreshold
  omega

/-- Options with a caller-supplied `revokeSpeechEnd` hook that always
vetoes. -/
def vetoEndOpts : VADOptions := { revokeSpeechEnd := true }

/-- Options with no caller-supplied veto hooks (the defaults). -/
def defaultVADOptions : VADOptions := {}

/-- Counterexample to claim C7 as stated: with a caller-supplied
`revokeSpeechEnd` hook that vetoes, pausing mid-speech does not force the
end-of-utterance transition — the speaking flag stays set and
`onSpeechEnd` never fires. -/
theorem pause_veto_cex :
    (pause vetoEndOpts (runVAD vetoEndOpts vadInit [(90, [1]), (90, [2])])).speeching = true ∧
    (pause vetoEndOpts (runVAD vetoEndOpts vadInit [(90, [1]), (90, [2])])).endFired = 0 := by
  decide

/-- Claim C7 (amended): pausing (or stopping, which routes through `pause`)
while the segmenter is in the Speaking state forces the end-of-utterance
transition — the speaking flag is cleared, the end callback fires with the
accumulated segment, and the pre-roll ring is cleared — provided the
caller's end-veto hook does not cancel it. -/
theorem pause_forces_speech_end (opts : VADOptions) (st : VadState)
    (hv : opts.revokeSpeechEnd = false) (hsp : st.speeching = true) :
    (pause opts st).speeching = false ∧
    (pause opts st).endFired = st.endFired + 1 ∧
    (pause opts st).sealed = st.sealed ++ [st.recordPCMPart] ∧
    (pause opts st).aheadChunks.queue = [] := by
  simp [pause, hsp, handleSpeechEnd, hv, FixedQueue.clear]

/-- Witness for the amended claim C7 at a concrete mid-speech state. -/
theorem pause_forces_speech_end_witness :
    (runVAD defaultVADOptions vadInit [(90, [5])]).speeching = true ∧
    ((pause defaultVADOptions (runVAD defaultVADOptions vadInit [(90, [5])])).speeching = false ∧
     (pause defaultVADOptions (runVAD defaultVADOptions vadInit [(90, [5])])).endFired =
       (runVAD defaultVADOptions vadInit [(90, [5])]).endFired + 1 ∧
     (pause defaultVADOptions (runVAD defaultVADOptions vadInit [(90, [5])])).sealed =
       (runVAD defaultVADOptions vadInit [(90, [5])]).sealed ++
         [(runVAD defaultVADOptions vadInit [(90, [5])]).recordPCMPart] ∧
     (pause defaultVADOptions (runVAD defaultVADOptions vadInit [(90, [5])])).aheadChunks.queue = []) :=
  ⟨by decide,
    pause_forces_speech_end defaultVADOptions (runVAD defaultVADOptions vadInit [(90, [5])])
      (by decide) (by decide)⟩

/-! ## Go realtime client (golang: part_006 `client`, part_007 `events`) -/

/-- JSON values as produced by Go `encoding/json`.  The pointer-valued
payload fields of `Event` (`*Session`, `*Response`, `*Item`,
`*EventError`, `*Conversation`) marshal to some JSON value; Go's
`omitempty` on a pointer tests nil-ness only, never the pointee, so the
embedding carries a marshalled payload as an opaque `Json` value.  A Go
`[]byte` marshals to a base64 string, represented by `bytes` over the raw
bytes. -/
inductive Json where
  | null
  | str (s : String)
  | num (n : ℤ)
  | bool (b : Bool)
  | bytes (bs : List Nat)
  | arr (xs : List Json)
  | obj (fields : List (String × Json))

/-- Struct `Event` (golang `events`, part_007): the fields and their order
as in the source.  Pointer fields are `Option Json` (presence = non-nil
pointer, value = marshalled payload); `[]byte` is a byte list; `int` and
`int64` are ℤ.  Go's zero value of each type (`""`, `0`, nil) marks an
unset field. -/
structure Event where
  eventID : String := ""
  type : String := ""
  session : Option Json := none
  audio : String := ""
  response : Option Json := none
  itemID : String := ""
  previousItemID : String := ""
  responseID : String := ""
  outputIndex : ℤ := 0
  contentIndex : ℤ := 0
  delta : String := ""
  item : Option Json := none
  clientTimestamp : ℤ := 0
  transcript : String := ""
  name : String := ""
  arguments : String := ""
  videoFrame : List Nat := []
  instructions : String := ""
  error : Option Json := none
  conversation : Option Json := none

/-- JSON keys of the `Event` struct tags (part_007). -/
def kEventId : String := "event_id"

def kType : String := "type"

def kSession : String := "session"

def kAudio : String := "audio"

def kResponse : String := "response"

def kItemId : String := "item_id"

def kPreviousItemId : String := "previous_item_id"

def kResponseId : String := "response_id"

def kOutputIndex : String := "output_index"

def kContentIndex : String := "content_index"

def kDelta : String := "delta"

def kItem : String := "item"

def kClientTimestamp : String := "client_timestamp"

def kTranscript : String := "transcript"

def kName : String := "name"

def kArguments : String := "arguments"

def kVideoFrame : String := "video_frame"

def kInstructions : String := "instructions"

def kError : String := "error"

def kConversation : String := "conversation"

/-- Marshalling of one string field tagged `omitempty`: dropped at the zero
value `""`. -/
def optionalStr (k v : String) : List (String × Json) :=
  if v = "" then [] else [(k, Json.str v)]

/-- Marshalling of one integer field tagged `omitempty`: dropped at the zero
value `0`. -/
def optionalInt (k : String) (v : ℤ) : List (String × Json) :=
  if v = 0 then [] else [(k, Json.num v)]

/-- Marshalling of one pointer field tagged `omitempty`: dropped when nil. -/
def optionalObj (k : String) (v : Option Json) : List (String × Json) :=
  match v with
  | none => []
  | some j => [(k, j)]

/-- Marshalling of one `[]byte` field tagged `omitempty`: dropped when
empty. -/
def optionalBytes (k : String) (v : List Nat) : List (String × Json) :=
  if v = [] then [] else [(k, Json.bytes v)]

/-- Go `json.Marshal` of `Event`, following the struct tags of part_007
field by field, in declaration order: every field except `Type` and
`Delta` carries `omitempty` and is dropped at its zero value; `Delta` has
the bare tag `json:"delta"` and is always emitted, even when empty, and
`Type` is likewise always emitted. -/
def Event.marshalFields (e : Event) : List (String × Json) :=
  optionalStr kEventId e.eventID ++
  [(kType, Json.str e.type)] ++
  optionalObj kSession e.session ++
  optionalStr kAudio e.audio ++
  optionalObj kResponse e.response ++
  optionalStr kItemId e.itemID ++
  optionalStr kPreviousItemId e.previousItemID ++
  optionalStr kResponseId e.responseID ++
  optionalInt kOutputIndex e.outputIndex ++
  optionalInt kContentIndex e.contentIndex ++
  [(kDelta, Json.str e.delta)] ++
  optionalObj kItem e.item ++
  optionalInt kClientTimestamp e.clientTimestamp ++
  optionalStr kTranscript e.transcript ++
  optionalStr kName e.name ++
  optionalStr kArguments e.arguments ++
  optionalBytes kVideoFrame e.videoFrame ++
  optionalStr kInstructions e.instructions ++
  optionalObj kError e.error ++
  optionalObj kConversation e.conversation

/-- Method `ToJson` (part_007): `json.Marshal` of the event (marshalling a
struct of these field types cannot fail, so the source's empty-string
error path is dead). -/
def Event.toJson (e : Event) : Json := Json.obj e.marshalFields

/-- Keys present in the serialised event. -/
def Event.jsonKeys (e : Event) : List String := e.marshalFields.map Prod.fst

lemma mem_keys_append (a : String) (l1 l2 : List (String × Json)) :
    a ∈ (l1 ++ l2).map Prod.fst ↔ a ∈ l1.map Prod.fst ∨ a ∈ l2.map Prod.fst := by
  simp

lemma mem_keys_optionalStr (a k v : String) :
    a ∈ (optionalStr k v).map Prod.fst ↔ (v ≠ "" ∧ a = k) := by
  unfold optionalStr
  split_ifs with h <;> simp [h]

lemma mem_keys_optionalInt (a k : String) (v : ℤ) :
    a ∈ (optionalInt k v).map Prod.fst ↔ (v ≠ 0 ∧ a = k) := by
  unfold optionalInt
  split_ifs with h <;> simp [h]

lemma mem_keys_optionalObj (a k : String) (v : Option Json) :
    a ∈ (optionalObj k v).map Prod.fst ↔ (v ≠ none ∧ a = k) := by
  cases v <;> simp [optionalObj]

lemma mem_keys_optionalBytes (a k : String) (v : List Nat) :
    a ∈ (optionalBytes k v).map Prod.fst ↔ (v ≠ [] ∧ a = k) := by
  unfold optionalBytes
  split_ifs with h <;> simp [h]

/-- Claim C6: serialising an `Event` emits no key for an unset optional
field (absent fields are omitted, not emitted as null or zero
placeholders), each optional key is present exactly when its field is set,
and the wire-mandated `delta` key (and the `type` discriminant) is always
present, even when empty. -/
theorem event_serialization_omits_unset (e : Event) :
    kType ∈ e.jsonKeys ∧ kDelta ∈ e.jsonKeys ∧
    (kEventId ∈ e.jsonKeys ↔ e.eventID ≠ "") ∧
    (kSession ∈ e.jsonKeys ↔ e.session ≠ none) ∧
    (kAudio ∈ e.jsonKeys ↔ e.audio ≠ "") ∧
    (kResponse ∈ e.jsonKeys ↔ e.response ≠ none) ∧
    (kItemId ∈ e.jsonKeys ↔ e.itemID ≠ "") ∧
    (kPreviousItemId ∈ e.jsonKeys ↔ e.previousItemID ≠ "") ∧
    (kResponseId ∈ e.jsonKeys ↔ e.responseID ≠ "") ∧
    (kOutputIndex ∈ e.jsonKeys ↔ e.outputIndex ≠ 0) ∧
    (kContentIndex ∈ e.jsonKeys ↔ e.contentIndex ≠ 0) ∧
    (kItem ∈ e.jsonKeys ↔ e.item ≠ none) ∧
    (kClientTimestamp ∈ e.jsonKeys ↔ e.clientTimestamp ≠ 0) ∧
    (kTranscript ∈ e.jsonKeys ↔ e.transcript ≠ "") ∧
    (kName ∈ e.jsonKeys ↔ e.name ≠ "") ∧
    (kArguments ∈ e.jsonKeys ↔ e.arguments ≠ "") ∧
    (kVideoFrame ∈ e.jsonKeys ↔ e.videoFrame ≠ []) ∧
    (kInstructions ∈ e.jsonKeys ↔ e.instructions ≠ "") ∧
    (kError ∈ e.jsonKeys ↔ e.error ≠ none) ∧
    (kConversation ∈ e.jsonKeys ↔ e.conversation ≠ none) := by
  refine ⟨?_, ?_, ?_, ?_, ?_, ?_, ?_, ?_, ?_, ?_, ?_, ?_, ?_, ?_, ?_, ?_, ?_, ?_, ?_, ?_⟩ <;>
    · simp only [Event.jsonKeys, Event.marshalFields, List.map_append, List.mem_append,
        mem_keys_optionalStr, mem_keys_optionalInt, mem_keys_optionalObj,
        mem_keys_optionalBytes, List.map_cons, List.map_nil, List.mem_cons,
        List.not_mem_nil,
        kEventId, kType, kSession, kAudio, kResponse, kItemId, kPreviousItemId,
        kResponseId, kOutputIndex, kContentIndex, kDelta, kItem, kClientTimestamp,
        kTranscript, kName, kArguments, kVideoFrame, kInstructions, kError, kConversation]
      simp

/-- Errors `Send` (part_006) can return: `fmt.Errorf("not connected")` when
no connection is active, or the error of `conn.WriteMessage`. -/
inductive SendError where
  | notConnected
  | transportError
deriving Repr, DecidableEq

/-- Observable outcome of one `Send` call: the returned error (if any), the
event after the call (the caller's `*Event` may have been stamped), the
frame handed to the transport when the write succeeds, and whether the
client still holds the connection (`isConnected`) afterwards. -/
structure SendOutcome where
  result : Option SendError
  event : Event
  wire : Option Json
  connectedAfter : Bool

/-- Method `Send` of `realtimeClient` (part_006): under the read lock, fail
with "not connected" if `isConnected` is false; stamp `ClientTimestamp`
with the wall clock (`now`, `time.Now().UnixMilli()`) when the caller's
value is not positive; serialise with `ToJson` and write.  `writeOk`
abstracts whether `conn.WriteMessage` succeeds; on failure `Send` logs and
returns the error — it neither closes the connection nor clears
`isConnected`. -/
def Send (connected : Bool) (writeOk : Bool) (now : ℤ) (e : Event) : SendOutcome :=
  if connected = false then
    { result := some .notConnected, event := e, wire := none, connectedAfter := connected }
  else
    let e2 : Event := if e.clientTimestamp ≤ 0 then { e with clientTimestamp := now } else e
    if writeOk = true then
      { result := none, event := e2, wire := some e2.toJson, connectedAfter := connected }
    else
      { result := some .transportError, event := e2, wire := none, connectedAfter := connected }

/-- Counterexample to claim C2 as stated: on a transport write failure
`Send` returns the transport error but the connection is NOT torn down —
`isConnected` is still true afterwards, contradicting the claimed
teardown side effect. -/
theorem send_write_failure_no_teardown_cex :
    (Send true false 1000 {}).result = some SendError.transportError ∧
    (Send true false 1000 {}).connectedAfter = true := by
  constructor <;> rfl

/-- Claim C2 (amended): `send` with no active connection returns the
NotConnected error without transmitting; on transport write failure it
returns the transport error without transmitting, but does not itself
tear down the connection — `isConnected` is untouched (the receive loop
terminates independently, when its own read on the broken transport
fails). -/
theorem send_error_handling :
    (∀ (wk : Bool) (now : ℤ) (e : Event),
      Send false wk now e =
        { result := some SendError.notConnected, event := e, wire := none
          connectedAfter := false }) ∧
    (∀ (now : ℤ) (e : Event),
      (Send true false now e).result = some SendError.transportError ∧
      (Send true false now e).wire = none ∧
      (Send true false now e).connectedAfter = true) := by
  refine ⟨fun wk now e => rfl, fun now e => ⟨rfl, rfl, rfl⟩⟩

/-- Counterexample to claim C9 as stated: a caller-set negative send
timestamp is not left unchanged — the stamping condition in the source is
`ClientTimestamp <= 0`, not a presence check, so `Send` overwrites it with
the current time. -/
theorem send_negative_timestamp_cex :
    (Send true true 1000 { clientTimestamp := -5 }).event.clientTimestamp = 1000 := by
  rfl

/-- Claim C9 (amended): on an active connection, `send` stamps the event's
client-side send timestamp with the current time (milliseconds since
epoch) exactly when the caller's value is not positive (unset, i.e. the
zero value, or invalid); a caller-set positive timestamp — and every other
field — is left unchanged; and the frame transmitted is the serialisation
of the resulting (stamped) event. -/
theorem send_stamps_timestamp :
    (∀ (wk : Bool) (now : ℤ) (e : Event),
      (Send true wk now e).event =
        (if e.clientTimestamp ≤ 0 then { e with clientTimestamp := now } else e)) ∧
    (∀ (now : ℤ) (e : Event),
      (Send true true now e).wire = some (Event.toJson (Send true true now e).event)) := by
  constructor
  · intro wk now e
    cases wk <;> rfl
  · intro now e
    rfl

/-- One attempted `ReadMessage` on the websocket: a successfully read text
frame, or a read error. -/
inductive ReadResult where
  | msg (raw : String)
  | readErr

/-- State of the receive loop `readWsMsg` (part_006) as observed from
outside: whether `isConnected` still holds, the events delivered to
`onReceived` in order, how many frames were read, and how many times
`json.Unmarshal` ran. -/
structure LoopState where
  connected : Bool
  delivered : List Event
  framesRead : Nat
  unmarshalCalls : Nat

/-- Loop state when `readWsMsg` starts (a fresh connection). -/
def loopInit : LoopState :=
  { connected := true, delivered := [], framesRead := 0, unmarshalCalls := 0 }

/-- Loop `readWsMsg` (part_006) over a queue of read results.  `parse`
models `json.Unmarshal` (`none` = malformed frame) and `onReceived` the
registered callback (`none` models a nil callback; `some cb` with `cb ev =
false` models the callback returning an error).  Each iteration first
checks `IsConnected`; a read error exits the loop; with a nil callback the
frame is skipped (`continue`) without unmarshalling; a failed unmarshal or
a callback error calls `Disconnect` and exits. -/
def readWsMsg (parse : String → Option Event) (onReceived : Option (Event → Bool)) :
    LoopState → List ReadResult → LoopState
  | st, [] => st
  | st, r :: rs =>
    if st.connected = false then st
    else
      match r with
      | .readErr => st
      | .msg raw =>
        let st1 : LoopState := { st with framesRead := st.framesRead + 1 }
        match onReceived with
        | none => readWsMsg parse onReceived st1 rs
        | some cb =>
          let st2 : LoopState := { st1 with unmarshalCalls := st1.unmarshalCalls + 1 }
          match parse raw with
          | none => { st2 with connected := false }
          | some ev =>
            if cb ev = true then
              readWsMsg parse onReceived { st2 with delivered := st2.delivered ++ [ev] } rs
            else { st2 with connected := false, delivered := st2.delivered ++ [ev] }

lemma readWsMsg_none_run (parse : String → Option Event) (raws : List String) :
    ∀ st : LoopState, st.connected = true →
      readWsMsg parse none st (raws.map ReadResult.msg) =
        { st with framesRead := st.framesRead + raws.length } := by
  induction raws with
  | nil => intro st _; simp [readWsMsg]
  | cons r rs ih =>
    intro st h
    obtain ⟨c, dl, fr, um⟩ := st
    simp only at h
    cases c
    · exact absurd h (by simp)
    · simp only [List.map_cons, readWsMsg]
      rw [if_neg (by simp)]
      rw [ih { connected := true, delivered := dl, framesRead := fr + 1, unmarshalCalls := um } rfl]
      simp [Nat.add_assoc, Nat.add_comm 1 rs.length]

/-- Claim C10: with a nil inbound-event callback the receive loop skips
every frame — it never unmarshals and delivers nothing — yet keeps
running: all frames are read, the connection is not torn down and no
error is surfaced. -/
theorem readloop_nil_callback_skips (parse : String → Option Event) (raws : List String) :
    readWsMsg parse none loopInit (raws.map ReadResult.msg) =
      { connected := true, delivered := [], framesRead := raws.length
        unmarshalCalls := 0 } := by
  rw [readWsMsg_none_run parse raws loopInit rfl]
  simp [loopInit]

end Glm
